import Mathlib

/-!
# Verification of the `smoke` terminal editor core

Shallow embedding of the editor's data model and key-dispatch logic.
The repository contains two near-duplicate editor implementations:

* `src/editor.rs` (together with `buffer.rs`, `cursor.rs`): the
  `Editor`/`Buffer`/`Cursor` structs; embedded below under the same names.
* `src/main.rs`: a standalone legacy editor with the run loop (`main`),
  embedded below as `MainEditor` together with the loop's key handling.

Rust `String`s are modelled as `List Char` (`Line`); the spec explicitly
waives Unicode grapheme/byte-index distinctions.  `usize` becomes `Nat`
(no arithmetic here can overflow 64 bits on interactive inputs).
`Instant`/`Duration` become `Nat` timestamps in milliseconds;
`Instant::duration_since` saturates at zero exactly like `Nat`
subtraction.  Vector/string indexing (`v[i]`, which panics out of
bounds in Rust) is modelled totally with `List.getD _ _ []`; all
theorems below carry the in-bounds hypotheses under which the two
agree.  The interactive I/O consumed by the command prompt and the save
path (the typed command line, the typed filename, and the success or
failure of `File::create` / `writeln!`) is passed in explicitly as a
`CmdEnv` record.
-/

/-- A text line: Rust `String` as a sequence of characters. -/
abbrev Line := List Char

/-- The two editor modes.  Modelled from the spec: `src/mode.rs` is not in
the source tree, but both editors and the spec use exactly the two-variant
enumeration Normal / Insert. -/
inductive Mode where
  | Normal
  | Insert
deriving DecidableEq, Repr

/-- The subset of crossterm `KeyCode` values the handlers distinguish;
`other` stands for every remaining variant (all fall into the `_` arms). -/
inductive KeyCode where
  | Char (c : Char)
  | Esc
  | Backspace
  | Enter
  | Left
  | Right
  | Up
  | Down
  | other
deriving DecidableEq, Repr

/-- Rust `str::trim`: drop whitespace from both ends. -/
def trimLine (s : Line) : Line :=
  ((s.dropWhile Char.isWhitespace).reverse.dropWhile Char.isWhitespace).reverse

/-- The interactive environment consumed by the `:` command prompt and by
`save_buffer`: what the user types and how the file system behaves. -/
structure CmdEnv where
  /-- the line read at the `: ` prompt -/
  command : Line
  /-- result of `read_line` at the `Enter filename:` prompt
      (`none` = the read itself failed) -/
  nameInput : Option Line
  /-- whether `File::create` succeeds -/
  createOk : Bool
  /-- index of the first line whose `writeln!` fails, if any -/
  writeFailsAt : Option Nat
deriving Repr

/-! ## `src/cursor.rs` -/

/-- `Cursor` from `src/cursor.rs`. -/
structure Cursor where
  x : Nat
  y : Nat
  visible : Bool
  blink_interval : Nat
  last_blink : Nat
deriving DecidableEq, Repr

/-- `Cursor::new` (`blink_interval` = 400 ms, `last_blink` = now). -/
def Cursor.new (now : Nat) : Cursor :=
  { x := 0, y := 0, visible := true, blink_interval := 400, last_blink := now }

/-- `Cursor::blink` from `src/cursor.rs`: sampled once per render tick. -/
def Cursor.blink (c : Cursor) (mode : Mode) (now : Nat) : Cursor :=
  if c.blink_interval ≤ now - c.last_blink then
    match mode with
    | Mode.Normal => { c with visible := true }
    | Mode.Insert => { c with visible := !c.visible, last_blink := now }
  else c

/-! ## `src/buffer.rs` and `src/editor.rs` -/

/-- `Buffer` from `src/buffer.rs`. -/
structure Buffer where
  lines : Nat
  active_line : Nat
  buffer_name : Line
  buffer_text : List Line
deriving DecidableEq, Repr

/-- `Editor` from `src/editor.rs`. -/
structure Editor where
  cursor : Cursor
  buffer : Buffer
  mode : Mode
deriving DecidableEq, Repr

/-- `Editor::new`.  `filename` is the optional path argument;
`readLines` models the collaborator `File::open` + `BufReader::lines`:
`none` when the open fails, `some ls` the collected lines (terminators
stripped) when the file is readable. -/
def Editor.new (filename : Option Line) (readLines : Option (List Line))
    (now : Nat) : Editor :=
  let buffer_content : List Line :=
    match filename with
    | some _ =>
      match readLines with
      | some ls => ls
      | none => [[]]
    | none => [[]]
  { cursor := Cursor.new now
    buffer :=
      { lines := 0
        active_line := 0
        buffer_name := filename.getD []
        buffer_text := buffer_content }
    mode := Mode.Normal }

/-- The line under the cursor, `self.buffer.buffer_text[self.cursor.y]`
(total model of the panicking Rust index). -/
def Editor.lineAt (e : Editor) : Line :=
  e.buffer.buffer_text.getD e.cursor.y []

/-- The filename-resolution prologue of `Editor::save_buffer`
(`src/editor.rs`): an empty `buffer_name` prompts for a name (`none` =
the read failed or the trimmed name was empty, both early returns), a
non-empty one is used as is. -/
def resolveSaveName (buffer_name : Line) (env : CmdEnv) : Option Line :=
  if buffer_name = [] then
    match env.nameInput with
    | none => none
    | some raw =>
      let trimmed_name := trimLine raw
      if trimmed_name = [] then none else some trimmed_name
  else some buffer_name

/-- `Editor::save_buffer` from `src/editor.rs`.  When `buffer_name` was
empty, the freshly prompted name is written into `buffer_name` *before*
`File::create` is attempted (the `// update it` assignment); when it was
non-empty the resolved filename is that very name, so in both cases the
pre-create state `e1` below carries `buffer_name = filename`.  On
success the name is assigned once more. -/
def Editor.save_buffer (e : Editor) (env : CmdEnv) : Editor :=
  match resolveSaveName e.buffer.buffer_name env with
  | none => e
  | some filename =>
    let e1 := { e with buffer := { e.buffer with buffer_name := filename } }
    if env.createOk then
      match env.writeFailsAt with
      | some i =>
        if i < e1.buffer.buffer_text.length then e1
        else { e1 with buffer := { e1.buffer with buffer_name := filename } }
      | none => { e1 with buffer := { e1.buffer with buffer_name := filename } }
    else e1

/-- `Editor::prompt_and_execute_command`.  The returned `Bool` records
whether the command called `std::process::exit` (`q` / `wq`). -/
def Editor.prompt_and_execute_command (e : Editor) (env : CmdEnv) :
    Editor × Bool :=
  let command := trimLine env.command
  if command = ['w'] then (e.save_buffer env, false)
  else if command = ['q'] then (e, true)
  else if command = ['w', 'q'] then (e.save_buffer env, true)
  else (e, false)

/-- `Editor::handle_normal_key`.  The returned `Bool` is the termination
flag handed back to the run loop.  The Rust `match` on disjoint
character-literal patterns is embedded as the equivalent chain of
equality tests, one test per arm, in source order. -/
def Editor.handle_normal_key (e : Editor) (key : KeyCode) (env : CmdEnv) :
    Editor × Bool :=
  if key = KeyCode.Char 'i' then ({ e with mode := Mode.Insert }, false)
  else if key = KeyCode.Char 'h' ∨ key = KeyCode.Left then
    (if e.cursor.x > 0 then
      { e with cursor := { e.cursor with x := e.cursor.x - 1 } }
     else e, false)
  else if key = KeyCode.Char 'j' ∨ key = KeyCode.Down then
    (if e.cursor.y < e.buffer.buffer_text.length - 1 then
      let y := e.cursor.y + 1
      let line_len := (e.buffer.buffer_text.getD y []).length
      let x := if e.cursor.x > line_len then line_len else e.cursor.x
      { e with cursor := { e.cursor with y := y, x := x } }
     else e, false)
  else if key = KeyCode.Char 'k' ∨ key = KeyCode.Up then
    (if e.cursor.y > 0 then
      let y := e.cursor.y - 1
      let line_len := (e.buffer.buffer_text.getD y []).length
      let x := if e.cursor.x > line_len then line_len else e.cursor.x
      { e with cursor := { e.cursor with y := y, x := x } }
     else e, false)
  else if key = KeyCode.Char 'l' ∨ key = KeyCode.Right then
    (let line_len := e.lineAt.length
     if e.cursor.x < line_len then
       { e with cursor := { e.cursor with x := e.cursor.x + 1 } }
     else e, false)
  else if key = KeyCode.Char '0' then
    ({ e with cursor := { e.cursor with x := 0 } }, false)
  else if key = KeyCode.Char '$' then
    (let line_len := e.lineAt.length
     { e with cursor := { e.cursor with x := if line_len > 0 then line_len else 0 } },
     false)
  else if key = KeyCode.Char ':' then ((e.prompt_and_execute_command env).1, false)
  else if key = KeyCode.Char 'q' then (e, true)
  else (e, false)

/-- `Editor::handle_insert_key`. -/
def Editor.handle_insert_key (e : Editor) (key : KeyCode) : Editor × Bool :=
  match key with
  | KeyCode.Esc =>
    let line_len := e.lineAt.length
    let x := if line_len > 0 ∧ e.cursor.x ≥ line_len then line_len - 1
             else e.cursor.x
    ({ e with mode := Mode.Normal, cursor := { e.cursor with x := x } }, false)
  | KeyCode.Char c =>
    let line := e.lineAt
    let line2 := if e.cursor.x ≥ line.length then line ++ [c]
                 else line.insertIdx e.cursor.x c
    ({ e with
        buffer := { e.buffer with
          buffer_text := e.buffer.buffer_text.set e.cursor.y line2 }
        cursor := { e.cursor with x := e.cursor.x + 1 } }, false)
  | KeyCode.Backspace =>
    if e.cursor.x > 0 then
      let line2 := e.lineAt.eraseIdx (e.cursor.x - 1)
      ({ e with
          buffer := { e.buffer with
            buffer_text := e.buffer.buffer_text.set e.cursor.y line2 }
          cursor := { e.cursor with x := e.cursor.x - 1 } }, false)
    else if e.cursor.y > 0 then
      let current_line := e.lineAt
      let bt1 := e.buffer.buffer_text.eraseIdx e.cursor.y
      let y2 := e.cursor.y - 1
      let prev := bt1.getD y2 []
      ({ e with
          buffer := { e.buffer with
            buffer_text := bt1.set y2 (prev ++ current_line) }
          cursor := { e.cursor with x := prev.length, y := y2 } }, false)
    else (e, false)
  | KeyCode.Enter =>
    let line := e.lineAt
    let kept := if e.cursor.x < line.length then line.take e.cursor.x else line
    let new_line := if e.cursor.x < line.length then line.drop e.cursor.x
                    else []
    ({ e with
        buffer := { e.buffer with
          buffer_text :=
            (e.buffer.buffer_text.set e.cursor.y kept).insertIdx
              (e.cursor.y + 1) new_line }
        cursor := { e.cursor with y := e.cursor.y + 1, x := 0 } }, false)
  | KeyCode.Left =>
    (if e.cursor.x > 0 then
      { e with cursor := { e.cursor with x := e.cursor.x - 1 } }
     else e, false)
  | KeyCode.Right =>
    (let line_len := e.lineAt.length
     if e.cursor.x < line_len then
       { e with cursor := { e.cursor with x := e.cursor.x + 1 } }
     else e, false)
  | KeyCode.Up =>
    (if e.cursor.y > 0 then
      let y := e.cursor.y - 1
      let line_len := (e.buffer.buffer_text.getD y []).length
      let x := if e.cursor.x > line_len then line_len else e.cursor.x
      { e with cursor := { e.cursor with y := y, x := x } }
     else e, false)
  | KeyCode.Down =>
    (if e.cursor.y < e.buffer.buffer_text.length - 1 then
      let y := e.cursor.y + 1
      let line_len := (e.buffer.buffer_text.getD y []).length
      let x := if e.cursor.x > line_len then line_len else e.cursor.x
      { e with cursor := { e.cursor with y := y, x := x } }
     else e, false)
  | _ => (e, false)

/-- `Editor::handle_keypress`: dispatch by mode. -/
def Editor.handle_keypress (e : Editor) (key : KeyCode) (env : CmdEnv) :
    Editor × Bool :=
  match e.mode with
  | Mode.Normal => e.handle_normal_key key env
  | Mode.Insert => e.handle_insert_key key

/-- The state effect of `Editor::render`: the only mutation render
performs is the per-tick `Cursor::blink` advance. -/
def Editor.renderTick (e : Editor) (now : Nat) : Editor :=
  { e with cursor := e.cursor.blink e.mode now }

/-- Run a sequence of keypresses, keeping the resulting states. -/
def Editor.runKeys (e : Editor) (env : CmdEnv) (keys : List KeyCode) : Editor :=
  keys.foldl (fun s k => (s.handle_keypress k env).1) e

/-- One observable step of the editor: either a dispatched keypress or a
render tick (the two ways the run loop touches the state). -/
inductive EditorStep where
  | keypress (key : KeyCode) (env : CmdEnv)
  | render (now : Nat)

/-- Run a sequence of keypresses and render ticks. -/
def Editor.runSteps (e : Editor) (steps : List EditorStep) : Editor :=
  steps.foldl
    (fun s st =>
      match st with
      | EditorStep.keypress key env => (s.handle_keypress key env).1
      | EditorStep.render now => s.renderTick now)
    e

/-- The cursor-bounds invariant of the spec: `y` indexes a real line and
`x` is at most that line's length (one-past-end allowed). -/
def Editor.Inv (e : Editor) : Prop :=
  e.cursor.y < e.buffer.buffer_text.length ∧ e.cursor.x ≤ e.lineAt.length

instance (e : Editor) : Decidable e.Inv := by
  unfold Editor.Inv; infer_instance

/-! ## `src/main.rs`: the legacy standalone editor and its run loop -/

/-- `Editor` from `src/main.rs` (the duplicate used by `main`). -/
structure MainEditor where
  buffer : List Line
  cursor_x : Nat
  cursor_y : Nat
  mode : Mode
  cursor_visible : Bool
  last_blink : Nat
  blink_interval : Nat
  filename : Option Line
deriving DecidableEq, Repr

/-- `Editor::new` from `src/main.rs` (`blink_interval` = 500 ms). -/
def MainEditor.new (filename : Option Line) (readLines : Option (List Line))
    (now : Nat) : MainEditor :=
  let buffer : List Line :=
    match filename with
    | some _ =>
      match readLines with
      | some ls => ls
      | none => [[]]
    | none => [[]]
  { buffer := buffer
    cursor_x := 0
    cursor_y := 0
    mode := Mode.Normal
    cursor_visible := true
    last_blink := now
    blink_interval := 500
    filename := filename }

/-- `Editor::update_cursor_blink` from `src/main.rs`: toggles visibility
whenever the interval elapsed, in every mode. -/
def MainEditor.update_cursor_blink (e : MainEditor) (now : Nat) : MainEditor :=
  if e.blink_interval ≤ now - e.last_blink then
    { e with cursor_visible := !e.cursor_visible, last_blink := now }
  else e

/-- The line under the cursor, `self.buffer[self.cursor_y]`. -/
def MainEditor.lineAt (e : MainEditor) : Line :=
  e.buffer.getD e.cursor_y []

/-- The filename-resolution prologue of `Editor::save_buffer` from
`src/main.rs`: a bound `self.filename` is used as is, otherwise the
user is prompted (`none` = the read failed or the trimmed name was
empty, both early returns). -/
def mainResolveSaveName (filename : Option Line) (env : CmdEnv) :
    Option Line :=
  match filename with
  | some name => some name
  | none =>
    match env.nameInput with
    | none => none
    | some raw =>
      let trimmed_name := trimLine raw
      if trimmed_name = [] then none else some trimmed_name

/-- `Editor::save_buffer` from `src/main.rs`: `self.filename` is assigned
only after every line was written successfully. -/
def MainEditor.save_buffer (e : MainEditor) (env : CmdEnv) : MainEditor :=
  match mainResolveSaveName e.filename env with
  | none => e
  | some filename =>
    if env.createOk then
      match env.writeFailsAt with
      | some i =>
        if i < e.buffer.length then e
        else { e with filename := some filename }
      | none => { e with filename := some filename }
    else e

/-- `Editor::prompt_and_execute_command` from `src/main.rs`; the `Bool`
records a `std::process::exit` (`q` / `wq`). -/
def MainEditor.prompt_and_execute_command (e : MainEditor) (env : CmdEnv) :
    MainEditor × Bool :=
  let command := trimLine env.command
  if command = ['w'] then (e.save_buffer env, false)
  else if command = ['q'] then (e, true)
  else if command = ['w', 'q'] then (e.save_buffer env, true)
  else (e, false)

/-- `Editor::handle_normal_key` from `src/main.rs` (literal-pattern
`match` embedded as the equivalent equality-test chain, in source
order). -/
def MainEditor.handle_normal_key (e : MainEditor) (key : KeyCode)
    (env : CmdEnv) : MainEditor × Bool :=
  if key = KeyCode.Char 'i' then ({ e with mode := Mode.Insert }, false)
  else if key = KeyCode.Char 'h' ∨ key = KeyCode.Left then
    (if e.cursor_x > 0 then { e with cursor_x := e.cursor_x - 1 } else e, false)
  else if key = KeyCode.Char 'j' ∨ key = KeyCode.Down then
    (if e.cursor_y < e.buffer.length - 1 then
      let y := e.cursor_y + 1
      let line_len := (e.buffer.getD y []).length
      { e with cursor_y := y
               cursor_x := if e.cursor_x > line_len then line_len else e.cursor_x }
     else e, false)
  else if key = KeyCode.Char 'k' ∨ key = KeyCode.Up then
    (if e.cursor_y > 0 then
      let y := e.cursor_y - 1
      let line_len := (e.buffer.getD y []).length
      { e with cursor_y := y
               cursor_x := if e.cursor_x > line_len then line_len else e.cursor_x }
     else e, false)
  else if key = KeyCode.Char 'l' ∨ key = KeyCode.Right then
    (if e.cursor_x < e.lineAt.length then { e with cursor_x := e.cursor_x + 1 }
     else e, false)
  else if key = KeyCode.Char '0' then ({ e with cursor_x := 0 }, false)
  else if key = KeyCode.Char '$' then
    ({ e with cursor_x := if e.lineAt.length > 0 then e.lineAt.length else 0 },
     false)
  else if key = KeyCode.Char ':' then ((e.prompt_and_execute_command env).1, false)
  else if key = KeyCode.Char 'q' then (e, true)
  else (e, false)

/-- `Editor::handle_insert_key` from `src/main.rs`. -/
def MainEditor.handle_insert_key (e : MainEditor) (key : KeyCode) :
    MainEditor × Bool :=
  match key with
  | KeyCode.Esc =>
    let line_len := e.lineAt.length
    ({ e with mode := Mode.Normal
              cursor_x := if line_len > 0 ∧ e.cursor_x ≥ line_len then line_len - 1
                          else e.cursor_x }, false)
  | KeyCode.Char c =>
    let line := e.lineAt
    let line2 := if e.cursor_x ≥ line.length then line ++ [c]
                 else line.insertIdx e.cursor_x c
    ({ e with buffer := e.buffer.set e.cursor_y line2
              cursor_x := e.cursor_x + 1 }, false)
  | KeyCode.Backspace =>
    if e.cursor_x > 0 then
      ({ e with buffer := e.buffer.set e.cursor_y (e.lineAt.eraseIdx (e.cursor_x - 1))
                cursor_x := e.cursor_x - 1 }, false)
    else if e.cursor_y > 0 then
      let current_line := e.lineAt
      let bt1 := e.buffer.eraseIdx e.cursor_y
      let y2 := e.cursor_y - 1
      let prev := bt1.getD y2 []
      ({ e with buffer := bt1.set y2 (prev ++ current_line)
                cursor_x := prev.length
                cursor_y := y2 }, false)
    else (e, false)
  | KeyCode.Enter =>
    let line := e.lineAt
    let kept := if e.cursor_x < line.length then line.take e.cursor_x else line
    let new_line := if e.cursor_x < line.length then line.drop e.cursor_x else []
    ({ e with buffer := (e.buffer.set e.cursor_y kept).insertIdx (e.cursor_y + 1) new_line
              cursor_y := e.cursor_y + 1
              cursor_x := 0 }, false)
  | KeyCode.Left =>
    (if e.cursor_x > 0 then { e with cursor_x := e.cursor_x - 1 } else e, false)
  | KeyCode.Right =>
    (if e.cursor_x < e.lineAt.length then { e with cursor_x := e.cursor_x + 1 }
     else e, false)
  | KeyCode.Up =>
    (if e.cursor_y > 0 then
      let y := e.cursor_y - 1
      let line_len := (e.buffer.getD y []).length
      { e with cursor_y := y
               cursor_x := if e.cursor_x > line_len then line_len else e.cursor_x }
     else e, false)
  | KeyCode.Down =>
    (if e.cursor_y < e.buffer.length - 1 then
      let y := e.cursor_y + 1
      let line_len := (e.buffer.getD y []).length
      { e with cursor_y := y
               cursor_x := if e.cursor_x > line_len then line_len else e.cursor_x }
     else e, false)
  | _ => (e, false)

/-- `Editor::handle_keypress` from `src/main.rs`. -/
def MainEditor.handle_keypress (e : MainEditor) (key : KeyCode) (env : CmdEnv) :
    MainEditor × Bool :=
  match e.mode with
  | Mode.Normal => e.handle_normal_key key env
  | Mode.Insert => e.handle_insert_key key

/-- The key-handling step of `main`'s run loop (`src/main.rs` lines
434-445): a `Char('c')` event whose modifiers contain CONTROL sets
`should_quit = true` directly; every other event goes through
`handle_keypress`.  Returns the state together with `should_quit`. -/
def mainLoopKeyStep (e : MainEditor) (code : KeyCode) (ctrl : Bool)
    (env : CmdEnv) : MainEditor × Bool :=
  if code = KeyCode.Char 'c' ∧ ctrl then (e, true)
  else e.handle_keypress code env

/-- The spec scenario's start state: buffer `["abc"]`, cursor `(3,0)`,
Normal mode. -/
def abcEditor : Editor :=
  { cursor := { x := 3, y := 0, visible := true, blink_interval := 400,
                last_blink := 0 }
    buffer := { lines := 0, active_line := 0, buffer_name := [],
                buffer_text := [['a', 'b', 'c']] }
    mode := Mode.Normal }

/-! ## Helper lemmas about list primitives, phrased via `getD` -/

theorem getD_set_self {α : Type} (d a : α) (l : List α) (n : Nat)
    (h : n < l.length) : (l.set n a).getD n d = a := by
  rw [List.getD_eq_getElem _ _ (by simpa using h)]
  exact List.getElem_set_self (h := by simpa using h)

theorem list_set_self {α : Type} (l : List α) (n : Nat) (h : n < l.length) :
    l.set n (l.get ⟨n, h⟩) = l := by
  rw [List.get_eq_getElem]
  apply List.ext_getElem (by simp)
  intro i h1 h2
  rw [List.getElem_set]
  split <;> simp_all

theorem getD_insertIdx_self {α : Type} (d a : α) (l : List α) (n : Nat)
    (h : n ≤ l.length) : (List.insertIdx n a l).getD n d = a := by
  rw [List.getD_eq_getElem _ _ (by rw [List.length_insertIdx n l h]; omega)]
  exact List.getElem_insertIdx_self l a n h

theorem getD_eraseIdx_of_lt {α : Type} (d : α) (l : List α) (i n : Nat)
    (hin : i < n) (h : i < (l.eraseIdx n).length) :
    (l.eraseIdx n).getD i d = l.getD i d := by
  have hi : i < l.length := lt_of_lt_of_le h (by
    rw [List.length_eraseIdx]; split <;> omega)
  rw [List.getD_eq_getElem _ _ h, List.getD_eq_getElem _ _ hi,
    List.getElem_eraseIdx]
  simp [hin]

/-! ## Frame lemmas for the command-prompt path -/

theorem save_buffer_frame (e : Editor) (env : CmdEnv) :
    ∃ nm, e.save_buffer env =
      { e with buffer := { e.buffer with buffer_name := nm } } := by
  unfold Editor.save_buffer
  split
  · exact ⟨e.buffer.buffer_name, rfl⟩
  · dsimp only
    split
    · split
      · split
        · exact ⟨_, rfl⟩
        · exact ⟨_, rfl⟩
      · exact ⟨_, rfl⟩
    · exact ⟨_, rfl⟩

theorem prompt_frame (e : Editor) (env : CmdEnv) :
    ∃ nm, (e.prompt_and_execute_command env).1 =
      { e with buffer := { e.buffer with buffer_name := nm } } := by
  unfold Editor.prompt_and_execute_command
  dsimp only
  split
  · exact save_buffer_frame e env
  · split
    · exact ⟨e.buffer.buffer_name, rfl⟩
    · split
      · exact save_buffer_frame e env
      · exact ⟨e.buffer.buffer_name, rfl⟩

/-! ## Flag lemmas for the dispatch -/

theorem handle_insert_key_flag (e : Editor) (key : KeyCode) :
    (e.handle_insert_key key).2 = false := by
  unfold Editor.handle_insert_key
  cases key <;> first | rfl | (dsimp only; split <;> first | rfl | (split <;> rfl))

theorem handle_normal_key_flag (e : Editor) (key : KeyCode) (env : CmdEnv) :
    (e.handle_normal_key key env).2 = true ↔ key = KeyCode.Char 'q' := by
  unfold Editor.handle_normal_key
  split_ifs <;> simp_all <;> rcases ‹_ ∨ _› with rfl | rfl <;> decide

/-! ## Claim theorems -/

/-- C2, counterexample: the claim states that a Ctrl+C key event never
sets the run loop's termination flag; at the freshly constructed editor
a Ctrl+C event sets `should_quit = true`, so the claim is false. -/
theorem C2_ctrl_c_sets_quit_flag :
    (mainLoopKeyStep (MainEditor.new none none 0) (KeyCode.Char 'c') true
      ⟨[], none, true, none⟩).2 = true := by
  rfl

/-- C2, amended: a `'c'` key event whose modifiers contain CONTROL always
terminates the run loop: it sets `should_quit = true` and leaves the
editor state unchanged, bypassing `handle_keypress` entirely. -/
theorem C2_amended_ctrl_c_always_terminates (e : MainEditor) (env : CmdEnv) :
    mainLoopKeyStep e (KeyCode.Char 'c') true env = (e, true) := by
  simp [mainLoopKeyStep]

/-- C3, failing evaluation: constructing the editor on an existing,
readable but empty file (zero lines collected) yields an empty
`buffer_text`, contradicting the claim that at least one line always
exists (the rest of the code indexes `buffer_text[cursor.y]`
unconditionally and relies on non-emptiness). -/
theorem C3_empty_file_yields_empty_buffer :
    (Editor.new (some ['f']) (some []) 0).buffer.buffer_text = [] := by
  rfl

/-- C4, counterexample: the claim states that the blink transition in
Normal mode forces `visible = true` regardless of previous visibility and
elapsed time; a hidden cursor sampled before the blink interval elapsed
(here 100 ms < 400 ms) stays hidden. -/
theorem C4_normal_blink_can_stay_hidden :
    ((Cursor.mk 0 0 false 400 0).blink Mode.Normal 100).visible = false := by
  rfl

/-- C4, amended: the two cited blink updates diverge.  In `src/cursor.rs`
(`Cursor::blink`) Normal mode forces `visible = true` exactly when the
elapsed time since the last toggle reaches the blink interval and
otherwise leaves the cursor unchanged, so that update never hides a
visible cursor (but a hidden one stays hidden until the interval
elapses).  In `src/main.rs` (`Editor::update_cursor_blink`) the mode is
ignored entirely: once the interval elapses visibility toggles, so
there the Normal-mode cursor genuinely blinks — concretely, the fresh
`main.rs` editor (Normal, visible, 500 ms interval) is hidden when
sampled at 500 ms. -/
theorem C4_amended_normal_blink (c : Cursor) (m : MainEditor)
    (now mnow : Nat) :
    c.blink Mode.Normal now =
      (if c.blink_interval ≤ now - c.last_blink then { c with visible := true }
       else c) ∧
    (c.blink Mode.Normal now).visible =
      (c.visible || decide (c.blink_interval ≤ now - c.last_blink)) ∧
    m.update_cursor_blink mnow =
      (if m.blink_interval ≤ mnow - m.last_blink then
        { m with cursor_visible := !m.cursor_visible, last_blink := mnow }
       else m) ∧
    (MainEditor.new none none 0).mode = Mode.Normal ∧
    (MainEditor.new none none 0).cursor_visible = true ∧
    ((MainEditor.new none none 0).update_cursor_blink 500).cursor_visible
      = false := by
  refine ⟨?_, ?_, ?_, rfl, rfl, by decide⟩
  · unfold Cursor.blink
    split <;> rfl
  · unfold Cursor.blink
    split <;> simp_all
  · unfold MainEditor.update_cursor_blink
    rfl

/-- C9: the dispatch never requests termination from Insert mode — for
every key, `handle_keypress` in Insert mode returns `false` as the
termination flag — and a `true` flag can only arise in Normal mode from
the `'q'` key. -/
theorem C9_quit_only_from_normal_q (e : Editor) (key : KeyCode) (env : CmdEnv) :
    (e.mode = Mode.Insert → (e.handle_keypress key env).2 = false) ∧
    ((e.handle_keypress key env).2 = true →
      e.mode = Mode.Normal ∧ key = KeyCode.Char 'q') := by
  unfold Editor.handle_keypress
  cases hm : e.mode with
  | Normal =>
    refine ⟨fun h => by simp_all, fun h => ⟨rfl, ?_⟩⟩
    exact (handle_normal_key_flag e key env).mp h
  | Insert =>
    refine ⟨fun _ => handle_insert_key_flag e key, fun h => absurd h ?_⟩
    simp [handle_insert_key_flag e key]

/-- C9 witness: at a concrete Insert-mode editor the flag is `false`. -/
theorem C9_witness :
    (((Editor.new none none 0).handle_keypress (KeyCode.Char 'i')
        ⟨[], none, true, none⟩).1.handle_keypress KeyCode.Enter
        ⟨[], none, true, none⟩).2 = false := by
  have h := C9_quit_only_from_normal_q
    (((Editor.new none none 0).handle_keypress (KeyCode.Char 'i')
        ⟨[], none, true, none⟩).1) KeyCode.Enter ⟨[], none, true, none⟩
  exact h.1 (by rfl)

/-- Every dispatched key leaves the `lines` and `active_line` metadata
fields of the `Buffer` unchanged. -/
theorem keypress_meta_frame (e : Editor) (key : KeyCode) (env : CmdEnv) :
    (e.handle_keypress key env).1.buffer.lines = e.buffer.lines ∧
    (e.handle_keypress key env).1.buffer.active_line = e.buffer.active_line := by
  unfold Editor.handle_keypress
  cases e.mode with
  | Normal =>
    dsimp only
    unfold Editor.handle_normal_key
    dsimp only
    obtain ⟨nm, hnm⟩ := prompt_frame e env
    split_ifs <;> simp [hnm]
  | Insert =>
    dsimp only
    unfold Editor.handle_insert_key
    cases key <;> dsimp only <;>
      first
      | (constructor <;> rfl)
      | (split
         · constructor <;> rfl
         · first
           | (constructor <;> rfl)
           | (split
              · constructor <;> rfl
              · constructor <;> rfl))

/-- C10: the `Buffer`'s `lines` and `active_line` metadata fields are 0
at construction and are preserved by every keypress dispatch and every
render tick, hence still 0 after any sequence of steps. -/
theorem C10_meta_fields_stay_zero :
    (∀ fn rl now, (Editor.new fn rl now).buffer.lines = 0 ∧
      (Editor.new fn rl now).buffer.active_line = 0) ∧
    (∀ (e : Editor) (steps : List EditorStep),
      (e.runSteps steps).buffer.lines = e.buffer.lines ∧
      (e.runSteps steps).buffer.active_line = e.buffer.active_line) ∧
    (∀ fn rl now steps,
      ((Editor.new fn rl now).runSteps steps).buffer.lines = 0 ∧
      ((Editor.new fn rl now).runSteps steps).buffer.active_line = 0) := by
  have hrun : ∀ (e : Editor) (steps : List EditorStep),
      (e.runSteps steps).buffer.lines = e.buffer.lines ∧
      (e.runSteps steps).buffer.active_line = e.buffer.active_line := by
    intro e steps
    induction steps generalizing e with
    | nil => exact ⟨rfl, rfl⟩
    | cons st rest ih =>
      cases st with
      | keypress key env =>
        have h1 := keypress_meta_frame e key env
        have h2 := ih (e.handle_keypress key env).1
        simp only [Editor.runSteps, List.foldl_cons] at h2 ⊢
        exact ⟨h2.1.trans h1.1, h2.2.trans h1.2⟩
      | render now =>
        have h2 := ih (e.renderTick now)
        simp only [Editor.runSteps, List.foldl_cons] at h2 ⊢
        exact h2
  refine ⟨fun _ _ _ => ⟨rfl, rfl⟩, hrun, fun fn rl now steps => ?_⟩
  obtain ⟨h1, h2⟩ := hrun (Editor.new fn rl now) steps
  exact ⟨h1, h2⟩

/-- C7: boundary movements are no-ops on the whole editor state: in
Normal mode, `'h'`/Left at column 0, `'k'`/Up at row 0, `'l'`/Right at
end of line, and `'j'`/Down at the last row return the state unchanged
(with a `false` termination flag); the Insert-mode arrow keys behave the
same way at the same boundaries. -/
theorem C7_boundary_moves_are_noops (e : Editor) (env : CmdEnv)
    (_hInv : e.Inv) :
    (e.mode = Mode.Normal →
      (e.cursor.x = 0 →
        e.handle_keypress (KeyCode.Char 'h') env = (e, false) ∧
        e.handle_keypress KeyCode.Left env = (e, false)) ∧
      (e.cursor.y = 0 →
        e.handle_keypress (KeyCode.Char 'k') env = (e, false) ∧
        e.handle_keypress KeyCode.Up env = (e, false)) ∧
      (e.cursor.x = e.lineAt.length →
        e.handle_keypress (KeyCode.Char 'l') env = (e, false) ∧
        e.handle_keypress KeyCode.Right env = (e, false)) ∧
      (e.cursor.y = e.buffer.buffer_text.length - 1 →
        e.handle_keypress (KeyCode.Char 'j') env = (e, false) ∧
        e.handle_keypress KeyCode.Down env = (e, false))) ∧
    (e.mode = Mode.Insert →
      (e.cursor.x = 0 → e.handle_keypress KeyCode.Left env = (e, false)) ∧
      (e.cursor.y = 0 → e.handle_keypress KeyCode.Up env = (e, false)) ∧
      (e.cursor.x = e.lineAt.length →
        e.handle_keypress KeyCode.Right env = (e, false)) ∧
      (e.cursor.y = e.buffer.buffer_text.length - 1 →
        e.handle_keypress KeyCode.Down env = (e, false))) := by
  constructor
  · intro hm
    refine ⟨fun hx => ⟨?_, ?_⟩, fun hy => ⟨?_, ?_⟩, fun hx => ⟨?_, ?_⟩,
      fun hy => ⟨?_, ?_⟩⟩ <;>
      simp_all [Editor.handle_keypress, Editor.handle_normal_key]
  · intro hm
    refine ⟨fun hx => ?_, fun hy => ?_, fun hx => ?_, fun hy => ?_⟩ <;>
      simp_all [Editor.handle_keypress, Editor.handle_insert_key]

/-- C7 witness: at the freshly constructed editor (Normal mode, cursor
at the origin of a single empty line) `'h'` is a no-op. -/
theorem C7_witness :
    (Editor.new none none 0).handle_keypress (KeyCode.Char 'h')
      ⟨[], none, true, none⟩ = (Editor.new none none 0, false) :=
  (((C7_boundary_moves_are_noops (Editor.new none none 0)
      ⟨[], none, true, none⟩ (by decide)).1 rfl).1 rfl).1

/-- C8: pressing Escape in Insert mode (under the cursor invariant
`x ≤ line length`) switches the mode to Normal and decrements `x` by one
exactly when the current line is non-empty and `x` sits one past the
end; otherwise `x` is unchanged; `y` and the whole buffer are untouched.
In particular the spec scenario holds: from `["abc"]` at `(3,0)` Normal,
`i`, `d`, Escape yields `["abcd"]`, Normal, `(3,0)`. -/
theorem C8_escape_reconciles_cursor (e : Editor) (env : CmdEnv)
    (hm : e.mode = Mode.Insert) (hx : e.cursor.x ≤ e.lineAt.length) :
    (e.handle_keypress KeyCode.Esc env).1.mode = Mode.Normal ∧
    (e.handle_keypress KeyCode.Esc env).1.cursor.x =
      (if e.lineAt.length ≠ 0 ∧ e.cursor.x = e.lineAt.length
       then e.cursor.x - 1 else e.cursor.x) ∧
    (e.handle_keypress KeyCode.Esc env).1.cursor.y = e.cursor.y ∧
    (e.handle_keypress KeyCode.Esc env).1.buffer = e.buffer ∧
    abcEditor.runKeys ⟨[], none, true, none⟩
        [KeyCode.Char 'i', KeyCode.Char 'd', KeyCode.Esc] =
      { abcEditor with
          buffer := { abcEditor.buffer with
            buffer_text := [['a', 'b', 'c', 'd']] } } := by
  refine ⟨?_, ?_, ?_, ?_, by decide⟩ <;>
    simp only [Editor.handle_keypress, hm, Editor.handle_insert_key]
  split_ifs <;> omega

/-- C8 witness: the theorem applied to the insert-mode state reached
after `i`, `d` in the scenario: Escape moves `x` from 4 to 3. -/
theorem C8_escape_witness :
    ((abcEditor.runKeys ⟨[], none, true, none⟩
        [KeyCode.Char 'i', KeyCode.Char 'd']).handle_keypress KeyCode.Esc
        ⟨[], none, true, none⟩).1.cursor.x = 3 := by
  have h := C8_escape_reconciles_cursor
    (abcEditor.runKeys ⟨[], none, true, none⟩
      [KeyCode.Char 'i', KeyCode.Char 'd'])
    ⟨[], none, true, none⟩ (by decide) (by decide)
  rw [h.2.1]
  decide

/-- C6: in Insert mode, under the cursor invariant, Enter (split at the
cursor) immediately followed by Backspace (delete-backward at the start
of the freshly created line) restores the entire editor state: the
original line list, the original cursor column and row, and every other
field. -/
theorem C6_split_then_join_roundtrip (e : Editor) (env : CmdEnv)
    (hm : e.mode = Mode.Insert)
    (hy : e.cursor.y < e.buffer.buffer_text.length)
    (hx : e.cursor.x ≤ e.lineAt.length) :
    ((e.handle_keypress KeyCode.Enter env).1.handle_keypress
        KeyCode.Backspace env).1 = e := by
  have hx' : e.cursor.x ≤ (e.buffer.buffer_text.getD e.cursor.y []).length :=
    hx
  have h1 : (e.handle_keypress KeyCode.Enter env).1 =
      { e with
        buffer := { e.buffer with
          buffer_text := (e.buffer.buffer_text.set e.cursor.y
              (if e.cursor.x < (e.buffer.buffer_text.getD e.cursor.y []).length
               then (e.buffer.buffer_text.getD e.cursor.y []).take e.cursor.x
               else e.buffer.buffer_text.getD e.cursor.y [])).insertIdx
            (e.cursor.y + 1)
            (if e.cursor.x < (e.buffer.buffer_text.getD e.cursor.y []).length
             then (e.buffer.buffer_text.getD e.cursor.y []).drop e.cursor.x
             else []) }
        cursor := { e.cursor with y := e.cursor.y + 1, x := 0 } } := by
    simp only [Editor.handle_keypress, hm, Editor.handle_insert_key,
      Editor.lineAt]
  rw [h1]
  have hplen :
      (if e.cursor.x < (e.buffer.buffer_text.getD e.cursor.y []).length
       then (e.buffer.buffer_text.getD e.cursor.y []).take e.cursor.x
       else e.buffer.buffer_text.getD e.cursor.y []).length = e.cursor.x := by
    split
    · simp only [List.length_take]; omega
    · omega
  have hps :
      (if e.cursor.x < (e.buffer.buffer_text.getD e.cursor.y []).length
       then (e.buffer.buffer_text.getD e.cursor.y []).take e.cursor.x
       else e.buffer.buffer_text.getD e.cursor.y []) ++
        (if e.cursor.x < (e.buffer.buffer_text.getD e.cursor.y []).length
         then (e.buffer.buffer_text.getD e.cursor.y []).drop e.cursor.x
         else []) = e.buffer.buffer_text.getD e.cursor.y [] := by
    split
    · exact List.take_append_drop _ _
    · simp
  simp only [Editor.handle_keypress, hm, Editor.handle_insert_key,
    Editor.lineAt, gt_iff_lt, lt_self_iff_false, if_false,
    Nat.zero_lt_succ, if_true]
  rw [getD_insertIdx_self _ _ _ _ (by simp only [List.length_set]; omega),
    List.eraseIdx_insertIdx, Nat.add_sub_cancel,
    getD_set_self _ _ _ _ hy,
    List.set_set, hplen, hps]
  have hgete : e.buffer.buffer_text.getD e.cursor.y [] =
      e.buffer.buffer_text.get ⟨e.cursor.y, hy⟩ := by
    rw [List.get_eq_getElem]
    exact List.getD_eq_getElem _ _ hy
  rw [hgete, list_set_self]
  rw [← hm]

/-- C6 witness: splitting `"hello"` at column 3 on row 0 and deleting
backward restores the state. -/
theorem C6_witness :
    ((({ cursor := { x := 3, y := 0, visible := true, blink_interval := 400,
                     last_blink := 0 }
         buffer := { lines := 0, active_line := 0, buffer_name := [],
                     buffer_text := [['h','e','l','l','o']] }
         mode := Mode.Insert } : Editor).handle_keypress KeyCode.Enter
        ⟨[], none, true, none⟩).1.handle_keypress KeyCode.Backspace
        ⟨[], none, true, none⟩).1 =
      { cursor := { x := 3, y := 0, visible := true, blink_interval := 400,
                    last_blink := 0 }
        buffer := { lines := 0, active_line := 0, buffer_name := [],
                    buffer_text := [['h','e','l','l','o']] }
        mode := Mode.Insert } :=
  C6_split_then_join_roundtrip _ _ (by decide) (by decide) (by decide)

/-- C1: for every editor state satisfying the cursor-bounds invariant
(`y < buffer_text.length` and `x ≤ length(buffer_text[y])`, which forces
a non-empty line list), `handle_keypress` with any key and any prompt
environment re-establishes the invariant: every movement, insertion,
deletion, line split/join, command and mode transition preserves it. -/
theorem C1_cursor_invariant_preserved (e : Editor) (key : KeyCode)
    (env : CmdEnv) (h : e.Inv) : ((e.handle_keypress key env).1).Inv := by
  obtain ⟨hy, hx⟩ := h
  have hx' : e.cursor.x ≤ (e.buffer.buffer_text.getD e.cursor.y []).length :=
    hx
  unfold Editor.handle_keypress
  cases hm : e.mode with
  | Normal =>
    dsimp only
    obtain ⟨nm, hnm⟩ := prompt_frame e env
    unfold Editor.handle_normal_key
    dsimp only
    split_ifs <;>
      first
      | (simp only [hnm]; exact ⟨hy, hx⟩)
      | exact ⟨hy, hx⟩
      | (simp only [Editor.Inv, Editor.lineAt] at *; constructor <;> omega)
  | Insert =>
    dsimp only
    unfold Editor.handle_insert_key
    cases key with
    | Char c =>
      dsimp only
      simp only [Editor.Inv, Editor.lineAt, List.length_set]
      refine ⟨hy, ?_⟩
      rw [getD_set_self _ _ _ _ hy]
      split
      · simp only [List.length_append, List.length_cons, List.length_nil]
        omega
      · rw [List.length_insertIdx _ _ (by omega)]
        omega
    | Esc =>
      dsimp only
      simp only [Editor.Inv, Editor.lineAt]
      refine ⟨hy, ?_⟩
      split_ifs <;> omega
    | Backspace =>
      dsimp only
      split_ifs with h1 h2
      · simp only [Editor.Inv, Editor.lineAt, List.length_set]
        refine ⟨hy, ?_⟩
        rw [getD_set_self _ _ _ _ hy, List.length_eraseIdx]
        split_ifs <;> omega
      · have hlen1 : (e.buffer.buffer_text.eraseIdx e.cursor.y).length =
            e.buffer.buffer_text.length - 1 := by
          rw [List.length_eraseIdx]
          simp [hy]
        simp only [Editor.Inv, Editor.lineAt, List.length_set]
        constructor
        · omega
        · rw [getD_set_self _ _ _ _ (by omega)]
          simp only [List.length_append]
          omega
      · exact ⟨hy, hx⟩
    | Enter =>
      dsimp only
      simp only [Editor.Inv, Editor.lineAt]
      rw [List.length_insertIdx _ _ (by simp only [List.length_set]; omega)]
      refine ⟨by simp only [List.length_set]; omega, by omega⟩
    | Left =>
      dsimp only
      split_ifs <;> exact ⟨hy, by simp only [Editor.Inv, Editor.lineAt] at *; omega⟩
    | Right =>
      dsimp only
      split_ifs <;> exact ⟨hy, by simp only [Editor.Inv, Editor.lineAt] at *; omega⟩
    | Up =>
      dsimp only
      split_ifs <;>
        first
        | exact ⟨hy, hx⟩
        | (simp only [Editor.Inv, Editor.lineAt] at *; constructor <;> omega)
    | Down =>
      dsimp only
      split_ifs <;>
        first
        | exact ⟨hy, hx⟩
        | (simp only [Editor.Inv, Editor.lineAt] at *; constructor <;> omega)
    | other => exact ⟨hy, hx⟩

/-- C1 witness: the invariant holds after pressing Backspace in Insert
mode on a two-line buffer with the cursor at the start of line 1. -/
theorem C1_witness :
    ((({ cursor := { x := 0, y := 1, visible := true, blink_interval := 400,
                     last_blink := 0 }
         buffer := { lines := 0, active_line := 0, buffer_name := [],
                     buffer_text := [['a','b'], ['c','d']] }
         mode := Mode.Insert } : Editor).handle_keypress KeyCode.Backspace
        ⟨[], none, true, none⟩).1).Inv :=
  C1_cursor_invariant_preserved _ KeyCode.Backspace _ (by decide)

/-- C5, counterexample: the claim states that when file creation fails
the Buffer's state including its associated name is unchanged; in the
`src/editor.rs` save, starting from an unnamed buffer, prompting the
name `"foo"` and then failing `File::create` leaves `buffer_name` set
to `"foo"` — the name changed although the save failed. -/
theorem C5_name_changes_on_failed_save :
    (Editor.save_buffer (Editor.new none none 0)
        ⟨[], some ['f', 'o', 'o'], false, none⟩).buffer.buffer_name ≠
      (Editor.new none none 0).buffer.buffer_name := by
  decide

/-- C5, amended: on any failure the buffer text, cursor and mode are
unchanged and the operation merely aborts; the `src/main.rs` save binds
`filename` exactly on success — both when a name was already bound and
when one is freshly prompted (the real binding at `main.rs` line 301);
the `src/editor.rs` save behaves the same way whenever a name was
already bound, but when the name was empty the freshly prompted
(trimmed) name is bound *before* the write attempt and therefore
persists even if creation or a line write fails. -/
theorem C5_amended_save_binding (e : Editor) (m : MainEditor) (env : CmdEnv) :
    ((e.save_buffer env).buffer.buffer_text = e.buffer.buffer_text ∧
     (e.save_buffer env).cursor = e.cursor ∧
     (e.save_buffer env).mode = e.mode) ∧
    (env.createOk = false → m.save_buffer env = m) ∧
    (∀ i, env.writeFailsAt = some i → i < m.buffer.length →
      m.save_buffer env = m) ∧
    (∀ name, m.filename = some name → env.createOk = true →
      env.writeFailsAt = none →
      m.save_buffer env = { m with filename := some name }) ∧
    (m.filename = none → ∀ raw, env.nameInput = some raw →
      trimLine raw ≠ [] → env.createOk = true → env.writeFailsAt = none →
      m.save_buffer env = { m with filename := some (trimLine raw) }) ∧
    (e.buffer.buffer_name ≠ [] → env.createOk = false →
      e.save_buffer env = e) ∧
    (e.buffer.buffer_name ≠ [] → ∀ i, env.writeFailsAt = some i →
      i < e.buffer.buffer_text.length → e.save_buffer env = e) ∧
    (e.buffer.buffer_name = [] → ∀ raw, env.nameInput = some raw →
      trimLine raw ≠ [] →
      (e.save_buffer env).buffer.buffer_name = trimLine raw) := by
  obtain ⟨nm, hnm⟩ := save_buffer_frame e env
  refine ⟨by rw [hnm]; exact ⟨rfl, rfl, rfl⟩, ?_, ?_, ?_, ?_, ?_, ?_, ?_⟩
  · intro hc
    unfold MainEditor.save_buffer
    split
    · rfl
    · rw [hc]
      rfl
  · intro i hw hi
    unfold MainEditor.save_buffer
    split
    · rfl
    · split
      · rw [hw]
        dsimp only
        rw [if_pos hi]
      · rfl
  · intro name hname hc hw
    unfold MainEditor.save_buffer
    rw [show mainResolveSaveName m.filename env = some name by
      unfold mainResolveSaveName; rw [hname]]
    dsimp only
    rw [hc, hw]
    rfl
  · intro hf raw hraw ht hc hw
    unfold MainEditor.save_buffer
    rw [show mainResolveSaveName m.filename env = some (trimLine raw) by
      unfold mainResolveSaveName
      rw [hf]
      dsimp only
      rw [hraw]
      dsimp only
      rw [if_neg ht]]
    dsimp only
    rw [hc, hw]
    rfl
  · intro hne hc
    unfold Editor.save_buffer
    rw [show resolveSaveName e.buffer.buffer_name env =
        some e.buffer.buffer_name by
      unfold resolveSaveName; rw [if_neg hne]]
    dsimp only
    rw [hc]
    rfl
  · intro hne i hw hi
    unfold Editor.save_buffer
    rw [show resolveSaveName e.buffer.buffer_name env =
        some e.buffer.buffer_name by
      unfold resolveSaveName; rw [if_neg hne]]
    dsimp only
    split
    · rw [hw]
      dsimp only
      rw [if_pos hi]
    · rfl
  · intro h0 raw hraw ht
    unfold Editor.save_buffer
    rw [show resolveSaveName e.buffer.buffer_name env = some (trimLine raw) by
      unfold resolveSaveName
      rw [if_pos h0, hraw]
      dsimp only
      rw [if_neg ht]]
    dsimp only
    split
    · split
      · split <;> rfl
      · rfl
    · rfl

/-- C5 witness: applying the amended theorem to a concrete failed save
of a buffer whose name is bound: the state is fully unchanged. -/
theorem C5_witness :
    Editor.save_buffer
        { cursor := Cursor.new 0
          buffer := { lines := 0, active_line := 0, buffer_name := ['f'],
                      buffer_text := [['x']] }
          mode := Mode.Normal }
        ⟨[], none, false, none⟩ =
      { cursor := Cursor.new 0
        buffer := { lines := 0, active_line := 0, buffer_name := ['f'],
                    buffer_text := [['x']] }
        mode := Mode.Normal } :=
  (C5_amended_save_binding _ (MainEditor.new none none 0)
    ⟨[], none, false, none⟩).2.2.2.2.2.1 (by decide) rfl
